import Mathlib

/-!
Verification of the westwood-bear serial bus driver against its specification.

The development shallowly embeds the protocol core of the crate: byte buffers
become `List Nat` (each element a byte value; `u8` truncation is written
`% 256` where the source casts), fallible operations return `Except`/`Option`,
and Rust panics are modelled as `Option.none`.  Each definition is translated
from the named source item in `src/`.
-/

namespace Bear

/-- Translation of `calculate_checksum` (src/checksum.rs): folds the bytes with
`u8::wrapping_add` (modelled as addition mod 256) and subtracts from 255. -/
def calculate_checksum (data : List Nat) : Nat :=
  255 - data.foldl (fun acc d => (acc + d) % 256) 0

/-- Translation of `BufferTooSmallError` (src/error.rs). -/
structure BufferTooSmallError where
  required_size : Nat
  total_size : Nat
  deriving DecidableEq

/-- Translation of `BufferTooSmallError::check` (src/error.rs). -/
def BufferTooSmallError.check (required_size total_size : Nat) :
    Except BufferTooSmallError Unit :=
  if required_size ≤ total_size then .ok () else .error ⟨required_size, total_size⟩

/-- Constant `HEADER_SIZE` (src/bus.rs). -/
def HEADER_SIZE : Nat := 4

/-- Constant `PACKET_ID` (src/protocol/mod.rs). -/
def PACKET_ID : Nat := 2

/-- Constant `PACKET_LEN` (src/protocol/mod.rs). -/
def PACKET_LEN : Nat := 3

/-- Constant `PACKET_ERROR` (src/protocol/mod.rs). -/
def PACKET_ERROR : Nat := 4

/-- Contiguous stores into a byte buffer: `buffer[off..off+data.len()]` receives
`data`, the rest of the buffer is untouched.  Used to model the indexed stores
and slice copies of `Bus::make_packet` (src/bus.rs). -/
def writeSlice (buffer : List Nat) (off : Nat) (data : List Nat) : List Nat :=
  buffer.take off ++ data ++ buffer.drop (off + data.length)

/-- Translation of `Bus::make_packet` (src/bus.rs, lines 192-220).  The
`encode_parameters` callback is specialised to copying the byte list `params`
into `buffer[5..5+parameter_count]`, which is what every instruction's encoder
does with its already-encoded parameter bytes.  The stores
`buffer[0]=0xFF; buffer[1]=0xFF; buffer[2]=packet_id; buffer[3]=len as u8;
buffer[4]=instruction_id` are modelled as one five-byte `writeSlice`, and the
final store `buffer[checksum_index]=checksum` as a one-byte `writeSlice`. -/
def make_packet (buffer : List Nat) (packet_id instruction_id : Nat)
    (params : List Nat) : Except BufferTooSmallError (List Nat × Nat) :=
  let parameter_count := params.length
  let len := parameter_count + 2
  match BufferTooSmallError.check (HEADER_SIZE + len) buffer.length with
  | .error e => .error e
  | .ok _ =>
    let buffer1 := writeSlice buffer 0
      [0xFF, 0xFF, packet_id % 256, len % 256, instruction_id % 256]
    let buffer2 := writeSlice buffer1 5 params
    let checksum_index := HEADER_SIZE + parameter_count + 1
    let checksum := calculate_checksum ((buffer2.take checksum_index).drop 2)
    .ok (writeSlice buffer2 checksum_index [checksum], checksum_index + 1)

/-- Translation of `find_header` (src/bus.rs, lines 354-363).  The indexed loop
is rendered as structural recursion on the buffer: position 0 matches when the
buffer starts with the full header prefix `[0xFF, 0xFF]`, or with the partial
prefix `[0xFF]` when only one byte remains; otherwise the scan advances one
byte.  An empty buffer returns its length, 0. -/
def find_header : List Nat → Nat
  | [] => 0
  | [b] => if b = 0xFF then 0 else 1
  | b0 :: b1 :: rest => if b0 = 0xFF ∧ b1 = 0xFF then 0 else 1 + find_header (b1 :: rest)

/-- The read-side state of `Bus` (src/bus.rs, struct fields `read_buffer`,
`read_len`, `used_bytes`).  The buffer capacity is `read_buffer.length`. -/
structure BusState where
  read_buffer : List Nat
  read_len : Nat
  used_bytes : Nat
  deriving DecidableEq

/-- Translation of `Bus::consume_read_bytes` (src/bus.rs, lines 338-346).
`copy_within(len..read_len, 0)` moves `buffer[len..read_len]` to the front and
leaves positions from `read_len - len` onwards unchanged; `used_bytes` uses
`saturating_sub`, which is exactly `Nat` subtraction. -/
def consume_read_bytes (s : BusState) (len : Nat) : BusState :=
  { read_buffer :=
      (s.read_buffer.take s.read_len).drop len ++ s.read_buffer.drop (s.read_len - len),
    used_bytes := s.used_bytes - len,
    read_len := s.read_len - len }

/-- Translation of `Bus::remove_garbage` (src/bus.rs, lines 328-337). -/
def remove_garbage (s : BusState) : BusState :=
  let garbage_len := find_header ((s.read_buffer.take s.read_len).drop s.used_bytes)
  consume_read_bytes s (s.used_bytes + garbage_len)

/-- Outcome of one pass of the parse loop of `Bus::read_packet_deadline`. -/
inductive ParseOutcome where
  | needMore : ParseOutcome
  | bufferTooSmall : BufferTooSmallError → ParseOutcome
  | invalidChecksum : Nat → Nat → ParseOutcome
  | packet : List Nat → ParseOutcome
  deriving DecidableEq

/-- Translation of one iteration of the loop in `Bus::read_packet_deadline`
(src/bus.rs, lines 277-326), given the bytes already buffered: remove garbage,
check `read_len > HEADER_SIZE`, read the length byte, check the buffer can hold
the declared message, and when the full message is buffered verify its checksum
and either consume it as invalid or mark it used and return the packet (the
message bytes without the trailing checksum byte).  `needMore` corresponds to
the loop issuing another serial read. -/
def try_parse (s : BusState) : ParseOutcome × BusState :=
  let s1 := remove_garbage s
  if HEADER_SIZE < s1.read_len then
    let read_buffer := s1.read_buffer.take s1.read_len
    let body_len := read_buffer.getD PACKET_LEN 0
    match BufferTooSmallError.check (HEADER_SIZE + body_len) s1.read_buffer.length with
    | .error e => (.bufferTooSmall e, s1)
    | .ok _ =>
      if HEADER_SIZE + body_len ≤ s1.read_len then
        let message_len := HEADER_SIZE + body_len
        let parameters_end := message_len - 1
        let checksum_message := s1.read_buffer.getD parameters_end 0
        let checksum_computed := calculate_checksum ((s1.read_buffer.take parameters_end).drop 2)
        if checksum_message ≠ checksum_computed then
          (.invalidChecksum checksum_message checksum_computed, consume_read_bytes s1 message_len)
        else
          (.packet (s1.read_buffer.take parameters_end),
           { s1 with used_bytes := s1.used_bytes + message_len })
      else (.needMore, s1)
  else (.needMore, s1)

/-- Union of all the bits defined in `ErrorFlags` (src/protocol/motor_error.rs):
COMMUNICATION, OVERHEAT, ABSOLUTE_POSITION, WATCHDOG_ESTOP, JOINT_LIMIT,
HARDWARE, INITIALIZATION. -/
def ALL_FLAGS : Nat := 0x01 ||| 0x02 ||| 0x04 ||| 0x08 ||| 0x10 ||| 0x20 ||| 0x40

/-- Translation of `WARNING_FLAGS = OVERHEAT.union(COMMUNICATION)`
(src/protocol/motor_error.rs). -/
def WARNING_FLAGS : Nat := 0x02 ||| 0x01

/-- Translation of `ERROR_FLAGS = WARNING_FLAGS.complement()`
(src/protocol/motor_error.rs): the bitflags complement keeps only defined bits,
i.e. `!bits & ALL`, which for `bits ⊆ ALL` is `ALL ^^^ bits`. -/
def ERROR_FLAGS : Nat := ALL_FLAGS ^^^ WARNING_FLAGS

/-- Translation of `ErrorFlags::from_bits` (bitflags): `some` exactly when the
byte contains only defined bits. -/
def ErrorFlags.from_bits (b : Nat) : Option Nat :=
  if b &&& ALL_FLAGS = b then some b else none

/-- Translation of `Response` (src/protocol/response.rs); flag values are kept
as raw bit patterns. -/
structure Response where
  motor_id : Nat
  warning : Option Nat
  data : List Nat
  deriving DecidableEq

/-- Translation of the `Response` construction in `Bus::read_response_timeout`
(src/bus.rs, lines 261-270), applied to a parsed packet. -/
def read_response_pure (packet : List Nat) : Response :=
  { motor_id := packet.getD PACKET_ID 0,
    warning := ErrorFlags.from_bits (packet.getD PACKET_ERROR 0),
    data := packet.drop 5 }

/-- Translation of `MotorError` (src/error.rs). -/
structure MotorError where
  flags : Nat
  deriving DecidableEq

/-- Translation of `InvalidPacketId` (src/error.rs). -/
structure InvalidPacketId where
  actual : Nat
  expected : Option Nat
  deriving DecidableEq

/-- Translation of `InvalidPacketId::check` (src/error.rs). -/
def InvalidPacketId.check (actual expected : Nat) : Except InvalidPacketId Unit :=
  if actual = expected then .ok () else .error ⟨actual, some expected⟩

/-- Translation of `MotorError::check` (src/error.rs, lines 180-190). -/
def MotorError.check : Option Nat → Except MotorError Unit
  | none => .ok ()
  | some flags => if flags &&& ERROR_FLAGS ≠ 0 then .error ⟨flags⟩ else .ok ()

/-- Result of `Bus::transfer_single` restricted to its post-read checks. -/
inductive TransferOutcome where
  | response : Response → TransferOutcome
  | invalidPacketId : InvalidPacketId → TransferOutcome
  | motorError : MotorError → TransferOutcome
  deriving DecidableEq

/-- Translation of the response path of `Bus::transfer_single` (src/bus.rs,
lines 174-190) applied to a structurally valid, checksum-correct packet: build
the `Response`, check the packet ID, check the motor error flags. -/
def transfer_single_pure (packet_id : Nat) (packet : List Nat) : TransferOutcome :=
  let r := read_response_pure packet
  match InvalidPacketId.check r.motor_id packet_id with
  | .error e => .invalidPacketId e
  | .ok _ =>
    match MotorError.check r.warning with
    | .error e => .motorError e
    | .ok _ => .response r

/-- Opcode `Instruction::Ping` (src/protocol/mod.rs). -/
def Ping : Nat := 0x01

/-- Translation of `Bus::ping` (src/instructions/ping.rs, lines 12-16): encode
a zero-parameter Ping packet into the write buffer, then read a response with
`expected_parameters = 4` (recorded as the middle component; it only sizes the
read timeout) and return it as-is — there is no packet-ID check and no
`MotorError::check` on this path. -/
def ping_pure (motor_id : Nat) (write_buffer incoming : List Nat) :
    Except BufferTooSmallError (List Nat × Nat × Response) :=
  match make_packet write_buffer motor_id Ping [] with
  | .error e => .error e
  | .ok (out, n) => .ok (out.take n, 4, read_response_pure incoming)

/-- Translation of `MultiWrite` (src/instructions/multi_write.rs): a register
address together with the 4-byte encoded value `[u8; 4]`. -/
structure MultiWrite where
  address : Nat
  data : List Nat
  deriving DecidableEq

/-- Rust slice expression `&l[i..]`: panics (modelled as `none`) when `i` is
past the end. -/
def slice_from (l : List Nat) (i : Nat) : Option (List Nat) :=
  if i ≤ l.length then some (l.drop i) else none

/-- Rust slice expression `&l[..n]`: panics (modelled as `none`) when `n` is
past the end. -/
def slice_to (l : List Nat) (n : Nat) : Option (List Nat) :=
  if n ≤ l.length then some (l.take n) else none

/-- Rust indexed store `l[i] = v`: panics (modelled as `none`) out of bounds. -/
def write_at (l : List Nat) (i v : Nat) : Option (List Nat) :=
  if i < l.length then some (l.set i v) else none

/-- Rust `dst.copy_from_slice(src)`: panics (modelled as `none`) when the two
slices have different lengths. -/
def copy_from_slice (dst src : List Nat) : Option (List Nat) :=
  if dst.length = src.length then some src else none

/-- Translation of one iteration of the encoding closure of `Bus::multi_write`
(src/instructions/multi_write.rs, lines 40-48): re-slice the parameter region
at `offset`, store the address byte at relative index 0, then execute
`buffer[1..][..5].copy_from_slice(&d.data)` exactly as written — taking five
bytes from relative index 1 and copying the 4-byte value into them.  On success
the surrounding buffer is reassembled; any panic is `none`. -/
def multi_write_entry (buffer : List Nat) (offset : Nat) (d : MultiWrite) :
    Option (List Nat) :=
  match slice_from buffer offset with
  | none => none
  | some sub =>
    match write_at sub 0 (d.address % 256) with
    | none => none
    | some sub1 =>
      match slice_to (sub1.drop 1) 5 with
      | none => none
      | some dst =>
        match copy_from_slice dst d.data with
        | none => none
        | some copied =>
          some (buffer.take offset ++ sub1.take 1 ++ copied ++ (sub1.drop 1).drop 5)

/-- Translation of the full encoding closure of `Bus::multi_write`: iterate the
entries, advancing `offset` by 5 per entry, over the parameter region. -/
def multi_write_encode : List MultiWrite → List Nat → Nat → Option (List Nat)
  | [], buffer, _ => some buffer
  | d :: rest, buffer, offset =>
    match multi_write_entry buffer offset d with
    | none => none
    | some buffer1 => multi_write_encode rest buffer1 (offset + 5)

/-- Translation of `let parameter_count = data.len() * 5`
(src/instructions/multi_write.rs). -/
def multi_write_parameter_count (entries : List MultiWrite) : Nat :=
  entries.length * 5

/-- Model of `core::time::Duration` as whole seconds plus sub-second
nanoseconds. -/
structure Duration where
  secs : Nat
  nanos : Nat
  deriving DecidableEq

/-- Translation of `Duration::new`, which carries nanoseconds of at least one
billion into the seconds. -/
def Duration.new (secs nanos : Nat) : Duration :=
  ⟨secs + nanos / 1000000000, nanos % 1000000000⟩

/-- Translation of `message_transfer_time` (src/bus.rs, lines 368-375):
`bits = message_size * 10`, whole seconds `bits / baud_rate`, and the remaining
bits converted to nanoseconds with `div_ceil` then cast `as u32`
(modelled as `% 2 ^ 32`). -/
def message_transfer_time (message_size baud_rate : Nat) : Duration :=
  let bits := message_size * 10
  let secs := bits / baud_rate
  let subsec_bits := bits % baud_rate
  let nanos := ((subsec_bits * 1000000000 + baud_rate - 1) / baud_rate) % 2 ^ 32
  Duration.new secs nanos

/-- Total length of a `Duration` in nanoseconds. -/
def duration_to_nanos (d : Duration) : Nat := d.secs * 1000000000 + d.nanos

/-- The cursor invariant of `Bus` stated by the specification:
`used_bytes ≤ read_len ≤ buffer_capacity`. -/
abbrev invariant (s : BusState) : Prop :=
  s.used_bytes ≤ s.read_len ∧ s.read_len ≤ s.read_buffer.length

/-- Read-cursor effect of `Bus::write_packet` (src/bus.rs, lines 242-243):
`read_len = 0; used_bytes = 0`. -/
def write_packet_reset (s : BusState) : BusState :=
  { s with read_len := 0, used_bytes := 0 }

/-- Effect of `self.read_len += new_data` (src/bus.rs, line 304) after a serial
read into `read_buffer[read_len..]`. -/
def read_grow (s : BusState) (new_data : Nat) : BusState :=
  { s with read_len := s.read_len + new_data }

/-- Read-side state built by `Bus::with_buffers_and_baud_rate` (src/bus.rs,
lines 140-161): both cursors zero. -/
def initial_state (read_buffer : List Nat) : BusState := ⟨read_buffer, 0, 0⟩

/-- A byte run that contains no occurrence of the header prefix `0xFF, 0xFF`
and does not end in a stray `0xFF` (a partial prefix). -/
def garbage_only : List Nat → Bool
  | [] => true
  | [b] => b != 0xFF
  | b0 :: b1 :: rest => (!(b0 == 0xFF && b1 == 0xFF)) && garbage_only (b1 :: rest)

/-! Helper lemmas. -/

instance {ε α : Type _} [DecidableEq ε] [DecidableEq α] : DecidableEq (Except ε α) :=
  fun a b =>
    match a, b with
    | .error x, .error y =>
      if h : x = y then .isTrue (by rw [h]) else .isFalse (by intro hc; cases hc; exact h rfl)
    | .error _, .ok _ => .isFalse (by intro hc; cases hc)
    | .ok _, .error _ => .isFalse (by intro hc; cases hc)
    | .ok x, .ok y =>
      if h : x = y then .isTrue (by rw [h]) else .isFalse (by intro hc; cases hc; exact h rfl)

theorem foldl_add_mod (l : List Nat) (a : Nat) :
    l.foldl (fun acc d => (acc + d) % 256) (a % 256) = (a + l.sum) % 256 := by
  induction l generalizing a with
  | nil => simp
  | cons d t ih =>
    simp only [List.foldl_cons, List.sum_cons]
    rw [Nat.mod_add_mod]
    rw [ih (a + d)]
    ring_nf

theorem calculate_checksum_eq (data : List Nat) :
    calculate_checksum data = 255 - data.sum % 256 := by
  have h := foldl_add_mod data 0
  simp only [Nat.zero_mod, Nat.zero_add] at h
  simp [calculate_checksum, h]

theorem getD_take_of_lt (l : List Nat) (n i d : Nat) (h : i < n) :
    (l.take n).getD i d = l.getD i d := by
  simp [List.getD_eq_getElem?_getD, List.getElem?_take, h]

theorem writeSlice_length (buffer : List Nat) (off : Nat) (data : List Nat)
    (h : off + data.length ≤ buffer.length) :
    (writeSlice buffer off data).length = buffer.length := by
  simp [writeSlice]
  omega

theorem find_header_le : ∀ l : List Nat, find_header l ≤ l.length
  | [] => by simp [find_header]
  | [b] => by
    simp only [find_header]
    split <;> simp
  | b0 :: b1 :: rest => by
    simp only [find_header]
    split
    · simp
    · have ih := find_header_le (b1 :: rest)
      simp only [List.length_cons] at ih ⊢
      omega

theorem find_header_append_garbage :
    ∀ g x : List Nat, garbage_only g = true → find_header x = 0 → x ≠ [] →
      find_header (g ++ x) = g.length
  | [], x, _, hx, _ => by simpa using hx
  | [b], x, hg, hx, hne => by
    match x, hne with
    | x0 :: xs, _ =>
      have hb : b ≠ 0xFF := by simpa [garbage_only] using hg
      simp only [List.cons_append, List.nil_append, find_header]
      rw [if_neg (by tauto)]
      simp [hx]
  | b0 :: b1 :: grest, x, hg, hx, hne => by
    have hg' : (!(b0 == 0xFF && b1 == 0xFF)) = true ∧ garbage_only (b1 :: grest) = true := by
      simpa [garbage_only, Bool.and_eq_true] using hg
    have hpair : ¬(b0 = 0xFF ∧ b1 = 0xFF) := by
      have := hg'.1
      simp only [Bool.not_eq_eq_eq_not, Bool.not_true, Bool.and_eq_false_iff] at this
      rcases this with h | h <;> simp [beq_eq_false_iff_ne] at h <;> tauto
    have ih := find_header_append_garbage (b1 :: grest) x hg'.2 hx hne
    simp only [List.cons_append] at ih ⊢
    rw [show b0 :: b1 :: (grest ++ x) = b0 :: (b1 :: (grest ++ x)) from rfl]
    simp only [find_header]
    rw [if_neg hpair]
    simp only [List.length_cons] at ih ⊢
    omega

theorem consume_read_bytes_zero (s : BusState) : consume_read_bytes s 0 = s := by
  cases s with
  | mk buffer rl ub => simp [consume_read_bytes, List.take_append_drop]

theorem remove_garbage_of_front_header (s : BusState) (h0 : s.used_bytes = 0)
    (hh : find_header (s.read_buffer.take s.read_len) = 0) :
    remove_garbage s = s := by
  simp [remove_garbage, h0, hh, consume_read_bytes_zero]

theorem remove_garbage_used_bytes (s : BusState) :
    (remove_garbage s).used_bytes = 0 := by
  simp [remove_garbage, consume_read_bytes]

theorem consume_read_bytes_invariant (s : BusState) (len : Nat)
    (hinv : invariant s) : invariant (consume_read_bytes s len) := by
  obtain ⟨h1, h2⟩ := hinv
  refine ⟨by simp [consume_read_bytes]; omega, ?_⟩
  simp only [consume_read_bytes, List.length_append, List.length_drop, List.length_take]
  omega

theorem remove_garbage_invariant (s : BusState) (hinv : invariant s) :
    invariant (remove_garbage s) := by
  exact consume_read_bytes_invariant s _ hinv

theorem remove_garbage_read_len (s : BusState) :
    (remove_garbage s).read_len =
      s.read_len - (s.used_bytes + find_header ((s.read_buffer.take s.read_len).drop s.used_bytes)) := by
  simp [remove_garbage, consume_read_bytes]

theorem remove_garbage_capacity (s : BusState) (hinv : invariant s) :
    (remove_garbage s).read_buffer.length = s.read_buffer.length := by
  obtain ⟨h1, h2⟩ := hinv
  simp only [remove_garbage, consume_read_bytes, List.length_append, List.length_drop,
    List.length_take]
  have hle := find_header_le ((s.read_buffer.take s.read_len).drop s.used_bytes)
  simp only [List.length_drop, List.length_take] at hle
  omega

theorem make_packet_ok (buffer : List Nat) (pid inst : Nat) (params : List Nat)
    (h : params.length + 6 ≤ buffer.length) :
    make_packet buffer pid inst params =
      .ok ([0xFF, 0xFF, pid % 256, (params.length + 2) % 256, inst % 256] ++ params ++
             calculate_checksum
               ([pid % 256, (params.length + 2) % 256, inst % 256] ++ params) ::
               buffer.drop (params.length + 6),
           params.length + 6) := by
  have hc : 4 + (params.length + 2) ≤ buffer.length := by omega
  have hhdr5 : ([0xFF, 0xFF, pid % 256, (params.length + 2) % 256, inst % 256] : List Nat).length
      = 5 := by simp
  have hB1 : writeSlice buffer 0 [0xFF, 0xFF, pid % 256, (params.length + 2) % 256, inst % 256]
      = [0xFF, 0xFF, pid % 256, (params.length + 2) % 256, inst % 256] ++ buffer.drop 5 := by
    simp [writeSlice]
  have hB2 : writeSlice
        ([0xFF, 0xFF, pid % 256, (params.length + 2) % 256, inst % 256] ++ buffer.drop 5)
        5 params
      = [0xFF, 0xFF, pid % 256, (params.length + 2) % 256, inst % 256] ++ params ++
          buffer.drop (5 + params.length) := by
    simp only [writeSlice]
    rw [List.take_left' hhdr5]
    rw [← List.drop_drop, List.drop_left' hhdr5, List.drop_drop]
  have hlen2 : (([0xFF, 0xFF, pid % 256, (params.length + 2) % 256, inst % 256] : List Nat) ++
      params).length = 4 + params.length + 1 := by
    simp; omega
  have e3 : (([0xFF, 0xFF, pid % 256, (params.length + 2) % 256, inst % 256] ++ params) ++
        buffer.drop (5 + params.length)).take (4 + params.length + 1)
      = [0xFF, 0xFF, pid % 256, (params.length + 2) % 256, inst % 256] ++ params :=
    List.take_left' hlen2
  have e4 : (([0xFF, 0xFF, pid % 256, (params.length + 2) % 256, inst % 256] ++ params) ++
        buffer.drop (5 + params.length)).drop (4 + params.length + 1 + 1)
      = buffer.drop (params.length + 6) := by
    rw [show 4 + params.length + 1 + 1 = (4 + params.length + 1) + 1 from rfl]
    rw [← List.drop_drop, List.drop_left' hlen2, List.drop_drop]
    rw [show 5 + params.length + 1 = params.length + 6 by omega]
  have e5 : (([0xFF, 0xFF, pid % 256, (params.length + 2) % 256, inst % 256] : List Nat) ++
        params).drop 2
      = [pid % 256, (params.length + 2) % 256, inst % 256] ++ params := by
    simp
  simp only [make_packet, BufferTooSmallError.check, HEADER_SIZE, if_pos hc]
  rw [hB1, hB2]
  simp only [writeSlice, e3, e5, List.length_singleton, e4]
  simp only [Prod.mk.injEq, Except.ok.injEq]
  refine ⟨?_, by omega⟩
  simp [List.append_assoc]

theorem find_header_zero_of_front (l : List Nat) (h0 : l.getD 0 0 = 0xFF)
    (h1 : l.getD 1 0 = 0xFF) (h2 : 2 ≤ l.length) : find_header l = 0 := by
  match l, h2 with
  | a :: b :: rest, _ =>
    simp only [List.getD_cons_zero, List.getD_cons_succ] at h0 h1
    simp [find_header, h0, h1]

theorem take_append_of_le (m tail : List Nat) (n : Nat) (h : n ≤ m.length) :
    (m ++ tail).take n = m.take n := by
  rw [List.take_append_eq_append_take]
  rw [show n - m.length = 0 by omega]
  simp

/-- Parsing a buffer whose front is a complete well-formed framed message:
`try_parse` succeeds, returns the message bytes without the trailing checksum
byte, and marks the whole message as used. -/
theorem try_parse_framed (m tail : List Nat) (h4 : 4 < m.length)
    (hh0 : m.getD 0 0 = 0xFF) (hh1 : m.getD 1 0 = 0xFF)
    (hlen : 4 + m.getD 3 0 = m.length)
    (hcs : m.getD (m.length - 1) 0 = calculate_checksum ((m.take (m.length - 1)).drop 2)) :
    try_parse ⟨m ++ tail, m.length, 0⟩ =
      (.packet (m.take (m.length - 1)), ⟨m ++ tail, m.length, m.length⟩) := by
  have htake : (m ++ tail).take m.length = m := List.take_left' rfl
  have hrg : remove_garbage ⟨m ++ tail, m.length, 0⟩ = ⟨m ++ tail, m.length, 0⟩ := by
    refine remove_garbage_of_front_header _ rfl ?_
    simp only [htake]
    exact find_header_zero_of_front m hh0 hh1 (by omega)
  have htake' : (m ++ tail).take (m.length - 1) = m.take (m.length - 1) :=
    take_append_of_le m tail _ (by omega)
  have hgetD : (m ++ tail).getD (m.length - 1) 0 = m.getD (m.length - 1) 0 :=
    List.getD_append m tail 0 _ (by omega)
  simp only [try_parse, hrg, HEADER_SIZE, PACKET_LEN, htake]
  rw [if_pos h4]
  simp only [BufferTooSmallError.check, hlen, List.length_append]
  rw [if_pos (by omega : m.length ≤ m.length + tail.length)]
  rw [if_pos (le_refl m.length)]
  simp only [hgetD, htake']
  rw [if_neg (by simp only [ne_eq, not_not]; exact hcs)]
  simp

theorem duration_new_to_nanos (a c : Nat) :
    duration_to_nanos (Duration.new a c) = a * 1000000000 + c := by
  simp only [duration_to_nanos, Duration.new]
  omega

/-! Claim theorems. -/

/-- C7: for every byte slice `data`, `calculate_checksum data` is total, equals
`255` minus the wrapping (mod 256) sum of the bytes, and satisfies
`data.sum % 256 + calculate_checksum data ≡ 255 (mod 256)`; the same function
is the one used by both `make_packet` (encoding) and `try_parse`
(verification). -/
theorem c7_checksum (data : List Nat) :
    calculate_checksum data = 255 - data.sum % 256 ∧
    (data.sum % 256 + calculate_checksum data) % 256 = 255 := by
  have h := calculate_checksum_eq data
  have hlt : data.sum % 256 < 256 := Nat.mod_lt _ (by omega)
  exact ⟨h, by rw [h]; omega⟩

/-- C8: for every message size `s` and nonzero baud rate `b`,
`message_transfer_time s b` is exactly `ceil (s * 10 / b)` seconds — its total
nanosecond count is `ceil (s * 10 * 10^9 / b)`, with the seconds part
`s * 10 / b` and the nanosecond part rounded up; in particular 8 bytes at
1000000 baud take 80 microseconds and 10 bytes at 9600 baud take 10416667
nanoseconds, about 10.4 milliseconds. -/
theorem c8_transfer_time (s b : Nat) (hb : 0 < b) :
    duration_to_nanos (message_transfer_time s b) = (s * 10 * 1000000000 + b - 1) / b ∧
    message_transfer_time 8 1000000 = ⟨0, 80000⟩ ∧
    message_transfer_time 10 9600 = ⟨0, 10416667⟩ := by
  refine ⟨?_, by decide, by decide⟩
  have hb1 : 1 ≤ b := hb
  have hr : s * 10 % b < b := Nat.mod_lt _ hb
  have hRB : s * 10 % b * 1000000000 + 1000000000 ≤ b * 1000000000 := by
    calc s * 10 % b * 1000000000 + 1000000000 = (s * 10 % b + 1) * 1000000000 := by ring
    _ ≤ b * 1000000000 := Nat.mul_le_mul_right _ (Nat.succ_le_of_lt hr)
  have hlt : (s * 10 % b * 1000000000 + b - 1) / b < 1000000000 + 1 := by
    rw [Nat.div_lt_iff_lt_mul hb]
    have hB : (1000000000 + 1) * b = b * 1000000000 + b := by ring
    rw [hB]
    omega
  have hmod : (s * 10 % b * 1000000000 + b - 1) / b % 2 ^ 32
      = (s * 10 % b * 1000000000 + b - 1) / b := by
    apply Nat.mod_eq_of_lt
    have h32 : (2 : Nat) ^ 32 = 4294967296 := by norm_num
    omega
  have hdm := Nat.div_add_mod (s * 10) b
  have hexp : (b * (s * 10 / b) + s * 10 % b) * 1000000000 + b - 1
      = b * (s * 10 / b * 1000000000) + (s * 10 % b * 1000000000 + b - 1) := by
    have e1 : (b * (s * 10 / b) + s * 10 % b) * 1000000000
        = b * (s * 10 / b * 1000000000) + s * 10 % b * 1000000000 := by ring
    rw [e1, Nat.add_sub_assoc hb1]
    rw [show s * 10 % b * 1000000000 + b - 1 = s * 10 % b * 1000000000 + (b - 1) from
      Nat.add_sub_assoc hb1 _]
    rw [Nat.add_assoc]
  have key : s * 10 / b * 1000000000 + (s * 10 % b * 1000000000 + b - 1) / b
      = (s * 10 * 1000000000 + b - 1) / b := by
    conv_rhs => rw [← hdm]
    rw [hexp, Nat.mul_add_div hb]
  simp only [message_transfer_time, hmod, duration_new_to_nanos]
  exact key

/-- Closed witness for C8 at a concrete size and baud rate. -/
theorem c8_transfer_time_witness :
    duration_to_nanos (message_transfer_time 10 9600) =
      (10 * 10 * 1000000000 + 9600 - 1) / 9600 ∧
    message_transfer_time 8 1000000 = ⟨0, 80000⟩ ∧
    message_transfer_time 10 9600 = ⟨0, 10416667⟩ :=
  c8_transfer_time 10 9600 (by norm_num)

/-- C1 (amended): for every `motor_id < 256`, instruction byte, and parameter
list with `params.length + 2 ≤ 255` and `params.length ≤ capacity − 6`,
encoding with `make_packet` and then parsing the produced bytes as the framer
does recovers the same `motor_id`, a length byte `params.length + 2`, the same
instruction and the same parameters, and the trailing checksum byte equals
`calculate_checksum` of the bytes from index 2 up to the last parameter.  (The
bound `params.length + 2 ≤ 255` is forced by the `len as u8` cast: beyond it
the length byte wraps mod 256.) -/
theorem c1_encode_decode (buffer : List Nat) (motor_id instruction : Nat)
    (params : List Nat) (hid : motor_id < 256) (hinst : instruction < 256)
    (hlen : params.length + 2 ≤ 255) (hcap : params.length + 6 ≤ buffer.length) :
    ∃ out p : List Nat,
      make_packet buffer motor_id instruction params = .ok (out, params.length + 6) ∧
      (try_parse ⟨out, params.length + 6, 0⟩).1 = .packet p ∧
      p.getD PACKET_ID 0 = motor_id ∧
      p.getD PACKET_LEN 0 = params.length + 2 ∧
      p.getD PACKET_ERROR 0 = instruction ∧
      p.drop 5 = params ∧
      out.getD (params.length + 5) 0 =
        calculate_checksum ((out.take (params.length + 5)).drop 2) := by
  have hm1 : motor_id % 256 = motor_id := Nat.mod_eq_of_lt hid
  have hm2 : instruction % 256 = instruction := Nat.mod_eq_of_lt hinst
  have hm3 : (params.length + 2) % 256 = params.length + 2 :=
    Nat.mod_eq_of_lt (by omega)
  have hmk := make_packet_ok buffer motor_id instruction params hcap
  rw [hm1, hm2, hm3] at hmk
  have hA : (([0xFF, 0xFF, motor_id, params.length + 2, instruction] : List Nat) ++
      params).length = params.length + 5 := by simp
  have hout : [0xFF, 0xFF, motor_id, params.length + 2, instruction] ++ params ++
        calculate_checksum ([motor_id, params.length + 2, instruction] ++ params) ::
          buffer.drop (params.length + 6)
      = (([0xFF, 0xFF, motor_id, params.length + 2, instruction] ++ params) ++
          [calculate_checksum ([motor_id, params.length + 2, instruction] ++ params)]) ++
          buffer.drop (params.length + 6) := by
    simp [List.append_assoc]
  have hmlen : ((([0xFF, 0xFF, motor_id, params.length + 2, instruction] : List Nat) ++
      params) ++
      [calculate_checksum ([motor_id, params.length + 2, instruction] ++ params)]).length
      = params.length + 6 := by simp
  have hh0 : ((([0xFF, 0xFF, motor_id, params.length + 2, instruction] : List Nat) ++
      params) ++
      [calculate_checksum ([motor_id, params.length + 2, instruction] ++ params)]).getD 0 0
      = 0xFF := by simp [List.cons_append]
  have hh1 : ((([0xFF, 0xFF, motor_id, params.length + 2, instruction] : List Nat) ++
      params) ++
      [calculate_checksum ([motor_id, params.length + 2, instruction] ++ params)]).getD 1 0
      = 0xFF := by simp [List.cons_append]
  have hh3 : ((([0xFF, 0xFF, motor_id, params.length + 2, instruction] : List Nat) ++
      params) ++
      [calculate_checksum ([motor_id, params.length + 2, instruction] ++ params)]).getD 3 0
      = params.length + 2 := by simp [List.cons_append]
  have htk : ((([0xFF, 0xFF, motor_id, params.length + 2, instruction] : List Nat) ++
      params) ++
      [calculate_checksum ([motor_id, params.length + 2, instruction] ++ params)]).take
        (params.length + 5)
      = [0xFF, 0xFF, motor_id, params.length + 2, instruction] ++ params :=
    List.take_left' hA
  have hgd : ((([0xFF, 0xFF, motor_id, params.length + 2, instruction] : List Nat) ++
      params) ++
      [calculate_checksum ([motor_id, params.length + 2, instruction] ++ params)]).getD
        (params.length + 5) 0
      = calculate_checksum ([motor_id, params.length + 2, instruction] ++ params) := by
    rw [List.getD_append_right _ _ _ _ hA.le, hA, Nat.sub_self]
    rfl
  have hdrop2 : ((([0xFF, 0xFF, motor_id, params.length + 2, instruction] : List Nat) ++
      params)).drop 2 = [motor_id, params.length + 2, instruction] ++ params := by
    simp [List.cons_append]
  have htp := try_parse_framed
    (([0xFF, 0xFF, motor_id, params.length + 2, instruction] ++ params) ++
      [calculate_checksum ([motor_id, params.length + 2, instruction] ++ params)])
    (buffer.drop (params.length + 6))
    (by rw [hmlen]; try omega) hh0 hh1 (by rw [hmlen, hh3]; try omega)
    (by rw [hmlen]
        rw [show params.length + 6 - 1 = params.length + 5 by omega]
        rw [hgd, htk, hdrop2])
  rw [hmlen] at htp
  refine ⟨_, [0xFF, 0xFF, motor_id, params.length + 2, instruction] ++ params,
    hmk, ?_, ?_, ?_, ?_, ?_, ?_⟩
  · rw [hout, htp]
    rw [show params.length + 6 - 1 = params.length + 5 by omega, htk]
  · simp [PACKET_ID, List.cons_append]
  · simp [PACKET_LEN, List.cons_append]
  · simp [PACKET_ERROR, List.cons_append]
  · simp [List.cons_append]
  · rw [hout]
    rw [List.getD_append _ _ _ _ (by rw [hmlen]; omega)]
    rw [take_append_of_le _ _ _ (by rw [hmlen]; omega)]
    rw [hgd, htk, hdrop2]

set_option maxRecDepth 8192 in
/-- C1 counterexample: as stated the claim also covers parameter lists longer
than 253 bytes inside a large enough buffer, where the `len as u8` cast wraps;
with 254 parameters the produced length byte is 0, not `254 + 2`. -/
theorem c1_counterexample :
    ¬((match make_packet (List.replicate 260 0) 1 3 (List.replicate 254 7) with
        | .ok (out, _) => out.getD PACKET_LEN 0
        | .error _ => 999) = 254 + 2) := by decide

/-- Closed witness for C1 on the crate's own test vector. -/
theorem c1_witness :
    ∃ out p : List Nat,
      make_packet (List.replicate 16 0) 1 3 [5, 0, 0, 32, 65] = .ok (out, 11) ∧
      (try_parse ⟨out, 11, 0⟩).1 = .packet p ∧
      p.getD PACKET_ID 0 = 1 ∧
      p.getD PACKET_LEN 0 = 7 ∧
      p.getD PACKET_ERROR 0 = 3 ∧
      p.drop 5 = [5, 0, 0, 32, 65] ∧
      out.getD 10 0 = calculate_checksum ((out.take 10).drop 2) :=
  c1_encode_decode (List.replicate 16 0) 1 3 [5, 0, 0, 32, 65]
    (by decide) (by decide) (by decide) (by decide)

theorem try_parse_eq_rg (s s' : BusState)
    (h : remove_garbage s = remove_garbage s') : try_parse s = try_parse s' := by
  simp only [try_parse, h]

/-- C5: for a read buffer holding N garbage bytes (no full header prefix
occurrence and no trailing partial `0xFF`) followed by a well-formed packet,
`find_header` reports exactly N skipped bytes, `remove_garbage` leaves exactly
the packet at the front, and the subsequent parse yields that packet unchanged;
and a buffer whose tail ends in a partial header-prefix match (`0xFF`) keeps
that partial match: `find_header` returns its start position. -/
theorem c5_garbage_skip :
    (∀ g p : List Nat, garbage_only g = true →
      4 < p.length → p.getD 0 0 = 0xFF → p.getD 1 0 = 0xFF →
      4 + p.getD 3 0 = p.length →
      p.getD (p.length - 1) 0 = calculate_checksum ((p.take (p.length - 1)).drop 2) →
      find_header (g ++ p) = g.length ∧
      (remove_garbage ⟨g ++ p, g.length + p.length, 0⟩).read_len = p.length ∧
      (remove_garbage ⟨g ++ p, g.length + p.length, 0⟩).read_buffer.take p.length = p ∧
      (try_parse ⟨g ++ p, g.length + p.length, 0⟩).1 = .packet (p.take (p.length - 1))) ∧
    (∀ g : List Nat, garbage_only g = true → find_header (g ++ [0xFF]) = g.length) := by
  constructor
  · intro g p hg hp4 hh0 hh1 hplen hpcs
    have hp0 : find_header p = 0 := find_header_zero_of_front p hh0 hh1 (by omega)
    have hpne : p ≠ [] := by
      intro h
      rw [h] at hp4
      simp at hp4
    have hfh : find_header (g ++ p) = g.length :=
      find_header_append_garbage g p hg hp0 hpne
    have hL : (g ++ p).length = g.length + p.length := by simp
    have htakeL : (g ++ p).take (g.length + p.length) = g ++ p := by
      rw [← hL]
      exact List.take_length (g ++ p)
    have hdl : (g ++ p).drop g.length = p := List.drop_left' rfl
    have hrg : remove_garbage ⟨g ++ p, g.length + p.length, 0⟩
        = ⟨p ++ (g ++ p).drop p.length, p.length, 0⟩ := by
      simp only [remove_garbage, consume_read_bytes, List.drop_zero, Nat.zero_add]
      rw [htakeL, hfh, hdl]
      simp [Nat.add_sub_cancel_left]
    have htp2 : (p ++ (g ++ p).drop p.length).take p.length = p := List.take_left' rfl
    have hrg2 : remove_garbage ⟨p ++ (g ++ p).drop p.length, p.length, 0⟩
        = ⟨p ++ (g ++ p).drop p.length, p.length, 0⟩ := by
      refine remove_garbage_of_front_header _ rfl ?_
      rw [htp2, hp0]
    refine ⟨hfh, by rw [hrg], by rw [hrg]; exact htp2, ?_⟩
    have hcongr := try_parse_eq_rg ⟨g ++ p, g.length + p.length, 0⟩
      ⟨p ++ (g ++ p).drop p.length, p.length, 0⟩ (by rw [hrg, hrg2])
    rw [hcongr,
      try_parse_framed p ((g ++ p).drop p.length) hp4 hh0 hh1 hplen hpcs]
  · intro g hg
    refine find_header_append_garbage g [0xFF] hg ?_ (by simp)
    simp [find_header]

/-- Closed witness for C5 with three garbage bytes before a valid packet, and a
two-byte garbage run before a partial header prefix. -/
theorem c5_witness :
    (find_header ([1, 255, 2] ++ [255, 255, 1, 2, 5, 247]) = 3 ∧
     (remove_garbage ⟨[1, 255, 2] ++ [255, 255, 1, 2, 5, 247], 9, 0⟩).read_len = 6 ∧
     (remove_garbage ⟨[1, 255, 2] ++ [255, 255, 1, 2, 5, 247], 9, 0⟩).read_buffer.take 6
       = [255, 255, 1, 2, 5, 247] ∧
     (try_parse ⟨[1, 255, 2] ++ [255, 255, 1, 2, 5, 247], 9, 0⟩).1
       = .packet ([255, 255, 1, 2, 5, 247].take 5)) ∧
    find_header ([9, 9] ++ [0xFF]) = 2 :=
  ⟨c5_garbage_skip.1 [1, 255, 2] [255, 255, 1, 2, 5, 247]
      (by decide) (by decide) (by decide) (by decide) (by decide) (by decide),
   c5_garbage_skip.2 [9, 9] (by decide)⟩

/-- C6: during packet reception, whenever the declared message size (4 header
bytes plus the length byte) exceeds the read-buffer capacity, the parse pass of
`read_packet_deadline` returns a buffer-too-small failure reporting the
required size (`4 + length byte`) and the actual buffer size; the model is
total, so no panic, and the message is rejected rather than truncated.  (The
state is taken after garbage removal: no used bytes and a header prefix at the
front, as established by `remove_garbage`.) -/
theorem c6_capacity (s : BusState) (hu : s.used_bytes = 0)
    (hh : find_header (s.read_buffer.take s.read_len) = 0)
    (h4 : HEADER_SIZE < s.read_len)
    (hbig : s.read_buffer.length <
      HEADER_SIZE + (s.read_buffer.take s.read_len).getD PACKET_LEN 0) :
    (try_parse s).1 = .bufferTooSmall
      ⟨HEADER_SIZE + (s.read_buffer.take s.read_len).getD PACKET_LEN 0,
       s.read_buffer.length⟩ := by
  have hrg := remove_garbage_of_front_header s hu hh
  simp only [try_parse, hrg]
  rw [if_pos h4]
  simp only [BufferTooSmallError.check]
  rw [if_neg (by omega)]

/-- Closed witness for C6: a six-byte buffer facing a declared body length of
200 fails with required size 204 against actual size 6. -/
theorem c6_capacity_witness :
    (try_parse ⟨[255, 255, 1, 200, 0, 0], 5, 0⟩).1 = .bufferTooSmall ⟨204, 6⟩ :=
  c6_capacity ⟨[255, 255, 1, 200, 0, 0], 5, 0⟩ rfl (by decide) (by decide) (by decide)

/-- C9: every `Bus` operation preserves the cursor invariant
`used_bytes ≤ read_len ≤ capacity`: it holds after construction (both cursors
zero), after the cursor reset of `write_packet`, after `consume_read_bytes`
(called with `len ≤ read_len`), after `remove_garbage`, after a read-loop
iteration growing `read_len` within capacity, and after a full parse pass of
`read_packet_deadline` (which only grows `used_bytes` up to `read_len`). -/
theorem c9_cursor_invariant :
    (∀ buffer : List Nat, invariant (initial_state buffer)) ∧
    (∀ s : BusState, invariant (write_packet_reset s)) ∧
    (∀ (s : BusState) (len : Nat), invariant s → len ≤ s.read_len →
      invariant (consume_read_bytes s len)) ∧
    (∀ s : BusState, invariant s → invariant (remove_garbage s)) ∧
    (∀ (s : BusState) (n : Nat), invariant s → s.read_len + n ≤ s.read_buffer.length →
      invariant (read_grow s n)) ∧
    (∀ s : BusState, invariant s → invariant (try_parse s).2) := by
  refine ⟨?_, ?_, ?_, ?_, ?_, ?_⟩
  · intro buffer
    exact ⟨Nat.le_refl 0, Nat.zero_le _⟩
  · intro s
    exact ⟨Nat.le_refl 0, Nat.zero_le _⟩
  · intro s len hinv _
    exact consume_read_bytes_invariant s len hinv
  · intro s hinv
    exact remove_garbage_invariant s hinv
  · intro s n hinv hcap
    exact ⟨Nat.le_trans hinv.1 (Nat.le_add_right _ _), hcap⟩
  · intro s hinv
    have h1 : invariant (remove_garbage s) := remove_garbage_invariant s hinv
    have hu : (remove_garbage s).used_bytes = 0 := remove_garbage_used_bytes s
    simp only [try_parse]
    split
    · split
      · exact h1
      · split
        · split
          · exact consume_read_bytes_invariant _ _ h1
          · rename_i hle _ _
            refine ⟨?_, h1.2⟩
            show (remove_garbage s).used_bytes + _ ≤ (remove_garbage s).read_len
            omega
        · exact h1
    · exact h1

/-- Closed witness for C9 at concrete states. -/
theorem c9_cursor_invariant_witness :
    invariant (initial_state [0, 0]) ∧
    invariant (write_packet_reset ⟨[1, 2, 3], 2, 1⟩) ∧
    invariant (consume_read_bytes ⟨[1, 2, 3], 2, 1⟩ 1) ∧
    invariant (remove_garbage ⟨[1, 2, 3], 2, 1⟩) ∧
    invariant (read_grow ⟨[1, 2, 3], 2, 1⟩ 1) ∧
    invariant (try_parse ⟨[255, 255, 1, 2, 5, 247], 6, 0⟩).2 :=
  ⟨c9_cursor_invariant.1 [0, 0],
   c9_cursor_invariant.2.1 ⟨[1, 2, 3], 2, 1⟩,
   c9_cursor_invariant.2.2.1 ⟨[1, 2, 3], 2, 1⟩ 1 (by decide) (by decide),
   c9_cursor_invariant.2.2.2.1 ⟨[1, 2, 3], 2, 1⟩ (by decide),
   c9_cursor_invariant.2.2.2.2.1 ⟨[1, 2, 3], 2, 1⟩ 1 (by decide) (by decide),
   c9_cursor_invariant.2.2.2.2.2 ⟨[255, 255, 1, 2, 5, 247], 6, 0⟩ (by decide)⟩

/-- C2 counterexample: a structurally valid response whose flag byte is 0 is
returned successfully with `warning = some 0` (the empty flag set), not
`warning = none`: the claim that a flag byte of 0 yields `warning = None`, and
that `warning` is `Some` only if the flag byte intersects WARNING_FLAGS, fails
on the code. -/
theorem c2_counterexample :
    transfer_single_pure 1 [255, 255, 1, 2, 0] = .response ⟨1, some 0, []⟩ ∧
    ¬((read_response_pure [255, 255, 1, 2, 0]).warning = none) := by decide

/-- C2 (amended): for every structurally valid, checksum-correct response
processed through `transfer_single`: a returned `Response` carries
`warning = ErrorFlags.from_bits flagByte` — `some flags` exactly when the flag
byte contains only defined bits, so a flag byte of 0 yields `some` of the
empty flag set rather than `none` — and any returned `flags` never intersects
ERROR_FLAGS; when the (defined) flag byte intersects ERROR_FLAGS and the
responder ID matches, the operation instead fails with a `MotorError` carrying
those flags, returning no `Response`. -/
theorem c2_transfer_warning (packet_id : Nat) (packet : List Nat) :
    (∀ r : Response, transfer_single_pure packet_id packet = .response r →
      r.warning = ErrorFlags.from_bits (packet.getD PACKET_ERROR 0) ∧
      ∀ f : Nat, r.warning = some f → f &&& ERROR_FLAGS = 0) ∧
    (packet.getD PACKET_ERROR 0 &&& ALL_FLAGS = packet.getD PACKET_ERROR 0 →
      packet.getD PACKET_ERROR 0 &&& ERROR_FLAGS ≠ 0 →
      packet.getD PACKET_ID 0 = packet_id →
      transfer_single_pure packet_id packet =
        .motorError ⟨packet.getD PACKET_ERROR 0⟩) := by
  constructor
  · intro r hr
    simp only [transfer_single_pure] at hr
    split at hr
    · exact absurd hr (by simp)
    · split at hr
      · exact absurd hr (by simp)
      · rename_i hok
        simp only [TransferOutcome.response.injEq] at hr
        subst hr
        refine ⟨rfl, ?_⟩
        intro f hf
        rw [hf] at hok
        by_contra hne
        simp only [MotorError.check] at hok
        rw [if_pos hne] at hok
        simp at hok
  · intro hdef herr hid
    have hrr : read_response_pure packet =
        ⟨packet_id, some (packet.getD PACKET_ERROR 0), packet.drop 5⟩ := by
      unfold read_response_pure ErrorFlags.from_bits
      rw [hid, if_pos hdef]
    simp only [transfer_single_pure, hrr]
    simp only [InvalidPacketId.check]
    rw [if_pos trivial]
    simp only [MotorError.check]
    rw [if_pos herr]

/-- Closed witness for C2: the absolute-position error bit (0x04) escalates to
a `MotorError`, and a returned communication warning (bit 0x01) never carries
ERROR_FLAGS bits. -/
theorem c2_transfer_warning_witness :
    transfer_single_pure 1 [255, 255, 1, 2, 4] = .motorError ⟨4⟩ ∧
    (1 : Nat) &&& ERROR_FLAGS = 0 :=
  ⟨(c2_transfer_warning 1 [255, 255, 1, 2, 4]).2 (by decide) (by decide) (by decide),
   ((c2_transfer_warning 1 [255, 255, 1, 2, 1]).1 ⟨1, some 1, []⟩ (by decide)).2 1
     (by decide)⟩

/-- C3 counterexample: `ping` performs neither the responder-ID check nor the
error-flag check: pinging motor 1 while the response packet carries responder
ID 2 and an ERROR_FLAGS bit (absolute-position, 0x04) still returns a
successful response instead of failing with an invalid-packet-id error. -/
theorem c3_counterexample :
    ping_pure 1 (List.replicate 8 0) [255, 255, 2, 2, 4]
      = .ok ([255, 255, 1, 2, 1, 251], 4, ⟨2, some 4, []⟩) ∧
    (2 : Nat) ≠ 1 ∧ (4 : Nat) &&& ERROR_FLAGS ≠ 0 := by decide

/-- C3 (amended): for every `motor_id < 256` and a write buffer of capacity at
least 6, `ping` encodes the zero-parameter Ping instruction packet
`[0xFF, 0xFF, motor_id, 2, 0x01, checksum]` and reads a response sized for a
4-parameter echo (the expected count only sizes the read timeout), returning
the decoded response unconditionally: responder ID and flag byte are not
validated on this path. -/
theorem c3_ping (motor_id : Nat) (write_buffer incoming : List Nat)
    (hid : motor_id < 256) (hcap : 6 ≤ write_buffer.length) :
    ping_pure motor_id write_buffer incoming =
      .ok ([0xFF, 0xFF, motor_id, 2, Ping, calculate_checksum [motor_id, 2, Ping]], 4,
        read_response_pure incoming) := by
  have hmk := make_packet_ok write_buffer motor_id Ping [] (by simp; omega)
  have hm := Nat.mod_eq_of_lt hid
  simp only [ping_pure, hmk]
  simp [hm, Ping]

/-- Closed witness for C3 at motor 1 with an 8-byte write buffer. -/
theorem c3_ping_witness :
    ping_pure 1 (List.replicate 8 0) [255, 255, 1, 2, 5, 0, 0, 0, 0] =
      .ok ([255, 255, 1, 2, 1, 251], 4,
        read_response_pure [255, 255, 1, 2, 5, 0, 0, 0, 0]) :=
  c3_ping 1 (List.replicate 8 0) [255, 255, 1, 2, 5, 0, 0, 0, 0]
    (by decide) (by decide)

/-- C10: for every flag byte with a bit outside the defined ErrorFlags set
(bits 0-6), `ErrorFlags.from_bits` yields `none`, so a structurally valid,
checksum-correct response with that flag byte and a matching responder ID is
returned as a successful `Response` with `warning = none`:
`MotorError.check` succeeds and the public interface reports no fault. -/
theorem c10_undefined_flags (b packet_id : Nat) (packet : List Nat)
    (hb : b &&& ALL_FLAGS ≠ b)
    (hflag : packet.getD PACKET_ERROR 0 = b)
    (hid : packet.getD PACKET_ID 0 = packet_id) :
    ErrorFlags.from_bits b = none ∧
    MotorError.check (ErrorFlags.from_bits b) = .ok () ∧
    transfer_single_pure packet_id packet =
      .response ⟨packet_id, none, packet.drop 5⟩ := by
  have h1 : ErrorFlags.from_bits b = none := by
    simp [ErrorFlags.from_bits, hb]
  refine ⟨h1, by rw [h1]; rfl, ?_⟩
  have hrr : read_response_pure packet = ⟨packet_id, none, packet.drop 5⟩ := by
    unfold read_response_pure
    rw [hid, hflag, h1]
  simp only [transfer_single_pure, hrr]
  simp only [InvalidPacketId.check]
  rw [if_pos trivial]
  rfl

/-- Closed witness for C10 on the crate's own test value 128 (0x80). -/
theorem c10_undefined_flags_witness :
    ErrorFlags.from_bits 128 = none ∧
    MotorError.check (ErrorFlags.from_bits 128) = .ok () ∧
    transfer_single_pure 1 [255, 255, 1, 2, 128] = .response ⟨1, none, []⟩ :=
  c10_undefined_flags 128 1 [255, 255, 1, 2, 128] (by decide) (by decide) (by decide)

/-- C4: the encoding closure of `multi_write` aborts (a Rust panic, modelled as
`none`) on every non-empty entry list instead of encoding five bytes per entry:
`buffer[1..][..5]` takes five bytes where only four remain after the address
byte of the last entry, and for earlier entries `copy_from_slice` receives a
5-byte destination for the 4-byte value.  Evaluated here at a single-entry
input with its exactly-sized 5-byte parameter region, and at a two-entry
input. -/
theorem c4_multi_write_aborts :
    multi_write_encode [⟨0, [0, 0, 0, 0]⟩]
      (List.replicate (multi_write_parameter_count [⟨0, [0, 0, 0, 0]⟩]) 0) 0 = none ∧
    multi_write_encode [⟨0, [0, 0, 0, 0]⟩, ⟨1, [1, 2, 3, 4]⟩]
      (List.replicate (multi_write_parameter_count
        [⟨0, [0, 0, 0, 0]⟩, ⟨1, [1, 2, 3, 4]⟩]) 0) 0 = none := by decide

end Bear
